import Mathlib

/-!
Verification development for a support-ticket backend.

The embedding models the ticket data model (models.py), the serializer
validation (serializers.py), the view-set actions (views.py) and the
AI-integration helpers (services/llm.py).  Python strings are modelled as
Lean strings (lists of unicode scalar values, matching Python code points);
the external LLM call is modelled by an explicit outcome value: either an
exception or a returned JSON payload (a Python value).  Machine-level
details that the code never relies on (database ids, timestamps) are left
out of the state.
-/

namespace TicketSystem

/-- Characters for which Python str.isspace is true; str.split with no
separator splits on runs of these and str.strip with no argument trims
them. -/
def pyIsSpace (c : Char) : Bool :=
  let n := c.toNat
  n = 32 || n = 9 || n = 10 || n = 13 || n = 11 || n = 12 ||
  (28 ≤ n && n ≤ 31) || n = 0x85 || n = 0xa0 || n = 0x1680 ||
  (0x2000 ≤ n && n ≤ 0x200a) || n = 0x2028 || n = 0x2029 ||
  n = 0x202f || n = 0x205f || n = 0x3000

/-- One step of splitting a string into whitespace-separated words,
consumed by a right fold: the accumulator holds the word currently being
built and the words already completed. -/
def wordsStep (c : Char) (acc : List Char × List (List Char)) :
    List Char × List (List Char) :=
  if pyIsSpace c then
    if acc.1 = [] then acc else ([], acc.1 :: acc.2)
  else (c :: acc.1, acc.2)

/-- Python str.split with no separator: maximal runs of non-whitespace
characters, in order; empty words never occur. -/
def pyWords (s : List Char) : List (List Char) :=
  let r := s.foldr wordsStep ([], [])
  if r.1 = [] then r.2 else r.1 :: r.2

/-- Python " ".join on a list of words. -/
def joinWords : List (List Char) → List Char
  | [] => []
  | [w] => w
  | w :: ws => w ++ ' ' :: joinWords ws

/-- Python str.strip with no argument (trim whitespace on both ends). -/
def pyStripL (l : List Char) : List Char :=
  List.rdropWhile pyIsSpace (l.dropWhile pyIsSpace)

/-- Python str.strip on Lean strings. -/
def pyStrip (s : String) : String :=
  ⟨pyStripL s.data⟩

/-- Python str.strip with an explicit character set. -/
def stripSet (cs : List Char) (l : List Char) : List Char :=
  List.rdropWhile (fun c => cs.contains c) (l.dropWhile (fun c => cs.contains c))

/-- Python str.rstrip with an explicit character set. -/
def rstripSet (cs : List Char) (l : List Char) : List Char :=
  List.rdropWhile (fun c => cs.contains c) l

/-- The element at index 0 of re.split applied with the pattern that
matches whitespace preceded by a sentence-ending punctuation mark: the
prefix of the input up to (and including) the first ".", "!" or "?" that
is followed by a whitespace character. -/
def sentFirst : List Char → List Char
  | [] => []
  | [c] => [c]
  | c :: d :: rest =>
    if (c = '.' || c = '!' || c = '?') && pyIsSpace d then [c]
    else c :: sentFirst (d :: rest)

/-- The characters stripped from both ends of a candidate title:
space, double quote, apostrophe and backtick. -/
def quoteChars : List Char := [' ', Char.ofNat 34, Char.ofNat 39, Char.ofNat 96]

/-- The characters stripped from the right end of a candidate title:
space and trailing punctuation. -/
def endPunct : List Char := [' ', '.', '!', '?', ';', ':']

/-- Shared cleaning step of _fallback_title and _normalize_title:
strip quote characters from both ends, then trailing punctuation. -/
def cleanCore (l : List Char) : List Char :=
  rstripSet endPunct (stripSet quoteChars l)

/-- Shared truncation step: when the text exceeds the limit, keep the
first k characters and right-strip whitespace. -/
def truncateTo (k : Nat) (l : List Char) : List Char :=
  if l.length > k then List.rdropWhile pyIsSpace (l.take k) else l

def DEFAULT_TITLE : String := "Support request"

def PREFERRED_TITLE_MAX_LENGTH : Nat := 60

def HARD_TITLE_MAX_LENGTH : Nat := 120

/-- Python " ".join(s.split()).strip(): collapse every whitespace run to
a single space and trim both ends. -/
def collapseWS (l : List Char) : List Char :=
  pyStripL (joinWords (pyWords l))

/-- The first sentence that the fallback-title computation works on:
split after the first sentence-ending punctuation followed by whitespace,
strip the result, and fall back to the whole collapsed description when
stripping empties it. -/
def firstSentenceOfL (description : List Char) : List Char :=
  if pyStripL (sentFirst (collapseWS description)) = [] then collapseWS description
  else pyStripL (sentFirst (collapseWS description))

/-- String-level wrapper of firstSentenceOfL. -/
def firstSentenceOf (description : String) : List Char :=
  firstSentenceOfL description.data

/-- services/llm.py _fallback_title, at the level of character lists; the
first-sentence computation is shared with firstSentenceOfL. -/
def fallbackTitleL (description : List Char) : List Char :=
  if collapseWS description = [] then DEFAULT_TITLE.data
  else if cleanCore (firstSentenceOfL description) = [] then DEFAULT_TITLE.data
  else if truncateTo PREFERRED_TITLE_MAX_LENGTH
      (cleanCore (firstSentenceOfL description)) = [] then DEFAULT_TITLE.data
  else truncateTo PREFERRED_TITLE_MAX_LENGTH (cleanCore (firstSentenceOfL description))

/-- services/llm.py _fallback_title. -/
def _fallback_title (description : String) : String :=
  ⟨fallbackTitleL description.data⟩

/-- services/llm.py _normalize_title applied to a string value, at the
level of character lists; None is represented by Option.none. -/
def normalizeTitleL (raw : List Char) : Option (List Char) :=
  if collapseWS raw = [] then Option.none
  else if cleanCore (collapseWS raw) = [] then Option.none
  else if truncateTo HARD_TITLE_MAX_LENGTH (cleanCore (collapseWS raw)) = [] then
    Option.none
  else some (truncateTo HARD_TITLE_MAX_LENGTH (cleanCore (collapseWS raw)))

/-- A Python value as produced by json.loads, plus None and booleans:
the payload space of the external LLM call.  Floats are modelled as
rationals; is_integer corresponds to denominator 1. -/
inductive PyVal where
  | none
  | pyBool (b : Bool)
  | int (n : Int)
  | float (q : ℚ)
  | str (s : String)
  | list (xs : List PyVal)
  | dict (entries : List (String × PyVal))

/-- Python dict.get with default None on the entry list of a dict. -/
def PyVal.get (entries : List (String × PyVal)) (k : String) : PyVal :=
  match entries.find? (fun e => e.1 = k) with
  | Option.none => PyVal.none
  | some e => e.2

/-- models.py Ticket.Category.values. -/
def categoryValues : List String := ["billing", "technical", "account", "general"]

/-- models.py Ticket.Priority.values. -/
def priorityValues : List String := ["low", "medium", "high", "critical"]

/-- models.py Ticket.Status.values. -/
def statusValues : List String := ["open", "in_progress", "resolved", "closed"]

/-- models.py Ticket.Sentiment.values. -/
def sentimentValues : List String := ["calm", "neutral", "frustrated", "angry"]

/-- A classification result: the two string fields returned by
classify_ticket. -/
structure Classification where
  suggested_category : String
  suggested_priority : String
deriving DecidableEq, Repr

/-- A sentiment and urgency result: the two fields returned by
score_sentiment_urgency. -/
structure Signals where
  sentiment : String
  urgency_score : Int
deriving DecidableEq, Repr

def DEFAULT_CLASSIFICATION : Classification :=
  { suggested_category := "general", suggested_priority := "low" }

def DEFAULT_SENTIMENT_URGENCY : Signals :=
  { sentiment := "neutral", urgency_score := 50 }

/-- Python "value in set(values)" on a dict member: only a string equal to
one of the values passes; any other Python value (None included) fails the
membership test. -/
def checkChoice (values : List String) : PyVal → Option String
  | .str c => if values.contains c then some c else Option.none
  | _ => Option.none

/-- services/llm.py _validate_classification_payload: the payload must be
a dict whose suggested_category and suggested_priority are strings in the
respective value sets; membership tests against non-strings are false. -/
def _validate_classification_payload (payload : PyVal) : Option Classification :=
  match payload with
  | .dict d =>
    (checkChoice categoryValues (PyVal.get d "suggested_category")).bind fun c =>
      (checkChoice priorityValues (PyVal.get d "suggested_priority")).bind fun p =>
        some { suggested_category := c, suggested_priority := p }
  | _ => Option.none

/-- services/llm.py: the urgency coercion inside
_validate_sentiment_urgency_payload: booleans are rejected, integral
floats are converted to int, other non-ints are rejected. -/
def coerceUrgency : PyVal → Option Int
  | .pyBool _ => Option.none
  | .float q => if q.den = 1 then some q.num else Option.none
  | .int n => some n
  | _ => Option.none

/-- The urgency validation inside _validate_sentiment_urgency_payload:
coercion followed by the range check. -/
def checkUrgency (v : PyVal) : Option Int :=
  (coerceUrgency v).bind fun n =>
    if n < 0 || n > 100 then Option.none else some n

/-- services/llm.py _validate_sentiment_urgency_payload. -/
def _validate_sentiment_urgency_payload (payload : PyVal) : Option Signals :=
  match payload with
  | .dict d =>
    (checkChoice sentimentValues (PyVal.get d "sentiment")).bind fun s =>
      (checkUrgency (PyVal.get d "urgency_score")).bind fun n =>
        some { sentiment := s, urgency_score := n }
  | _ => Option.none

/-- The outcome of one invocation of _request_structured_json: either some
exception was raised during the external call (or JSON decoding), or a
Python value was returned; a returned None (missing API key, no choices,
empty content) is the value PyVal.none. -/
inductive LLMOutcome where
  | exn
  | returns (v : PyVal)

/-- services/llm.py classify_ticket: validate the returned payload and
fall back to the default classification on any exception or validation
failure.  The description only feeds the prompt of the external call,
which the outcome argument models. -/
def classify_ticket (description : String) (o : LLMOutcome) : Classification :=
  match o with
  | .exn => DEFAULT_CLASSIFICATION
  | .returns v => (_validate_classification_payload v).getD DEFAULT_CLASSIFICATION

/-- services/llm.py _normalize_title applied to one dict member: only a
string value normalizes, anything else (the isinstance check) yields
None. -/
def titleFromEntry : PyVal → Option String
  | .str s => (normalizeTitleL s.data).map (fun l => String.mk l)
  | _ => Option.none

/-- services/llm.py suggest_title: parse step applied to the returned
payload, mirroring the isinstance dict test and the normalization of the
suggested_title member. -/
def titleFromPayload (v : PyVal) : Option String :=
  match v with
  | .dict d => titleFromEntry (PyVal.get d "suggested_title")
  | _ => Option.none

/-- services/llm.py suggest_title: return the normalized suggested title
when the payload yields one, otherwise the description-derived fallback
title; any exception also yields the fallback title. -/
def suggest_title (description : String) (o : LLMOutcome) : String :=
  let fallback_title := _fallback_title description
  match o with
  | .exn => fallback_title
  | .returns v => (titleFromPayload v).getD fallback_title

/-- services/llm.py score_sentiment_urgency: validate the returned payload
and fall back to the default sentiment and urgency on any exception or
validation failure.  Title and description only feed the prompt. -/
def score_sentiment_urgency (title description : String) (o : LLMOutcome) : Signals :=
  match o with
  | .exn => DEFAULT_SENTIMENT_URGENCY
  | .returns v => (_validate_sentiment_urgency_payload v).getD DEFAULT_SENTIMENT_URGENCY

/-- models.py: a stored ticket.  Database id and created_at timestamp are
not part of the modelled state: no claim depends on them. -/
structure Ticket where
  title : String
  description : String
  category : String
  priority : String
  status : String
  sentiment : String
  urgency_score : Int
deriving DecidableEq, Repr

/-- The range and enum invariant of models.py (choices on the fields and
the five database check constraints; urgency bounds as in
ticket_urgency_range). -/
def validTicket (t : Ticket) : Prop :=
  t.category ∈ categoryValues ∧ t.priority ∈ priorityValues ∧
  t.status ∈ statusValues ∧ t.sentiment ∈ sentimentValues ∧
  0 ≤ t.urgency_score ∧ t.urgency_score ≤ 100

instance (t : Ticket) : Decidable (validTicket t) := by
  unfold validTicket; infer_instance

/-- The body of an incoming create or PATCH request, restricted to the
fields of TicketSerializer; sentiment and urgency_score are listed so that
the read-only policy on them can be stated. -/
structure RawTicketInput where
  title : Option String
  description : Option String
  category : Option String
  priority : Option String
  status : Option String
  sentiment : Option String
  urgency_score : Option Int
deriving DecidableEq, Repr

/-- serializers.py TicketSerializer.validate_title: strip, reject blank,
reject more than 200 characters, return the cleaned value. -/
def validate_title (value : String) : Option String :=
  let cleaned := pyStrip value
  if cleaned = "" then Option.none
  else if cleaned.length > 200 then Option.none
  else some cleaned

/-- serializers.py TicketSerializer.validate_description: strip and
reject blank. -/
def validate_description (value : String) : Option String :=
  let cleaned := pyStrip value
  if cleaned = "" then Option.none else some cleaned

/-- The validated data of a successful create request: title, description,
category and priority are required; status is optional (the model default
applies when absent).  The read-only fields sentiment and urgency_score
never appear. -/
structure ValidatedCreate where
  title : String
  description : String
  category : String
  priority : String
  status : Option String
deriving DecidableEq, Repr

/-- Serializer validation for a create request: required fields must be
present, title and description go through their field validators, the
choice fields must be members of the model value sets, and the read-only
fields are dropped. -/
def runCreateValidation (raw : RawTicketInput) : Option ValidatedCreate :=
  raw.title.bind fun t =>
    raw.description.bind fun d =>
      raw.category.bind fun c =>
        raw.priority.bind fun p =>
          (validate_title t).bind fun ct =>
            (validate_description d).bind fun cd =>
              if categoryValues.contains c && priorityValues.contains p then
                match raw.status with
                | Option.none => some ⟨ct, cd, c, p, Option.none⟩
                | some st =>
                  if statusValues.contains st then some ⟨ct, cd, c, p, some st⟩
                  else Option.none
              else Option.none

/-- The validated data of a successful PATCH request: every field is
optional, and a present field has passed its validator.  The read-only
fields sentiment and urgency_score never appear. -/
structure ValidatedUpdate where
  title : Option String
  description : Option String
  category : Option String
  priority : Option String
  status : Option String
deriving DecidableEq, Repr

/-- Validation of one optional text field of a PATCH request. -/
def validateOptField (validate : String → Option String) :
    Option String → Option (Option String)
  | Option.none => some Option.none
  | some v => (validate v).map some

/-- Validation of one optional choice field of a PATCH request. -/
def validateOptChoice (values : List String) :
    Option String → Option (Option String)
  | Option.none => some Option.none
  | some v => if values.contains v then some (some v) else Option.none

/-- Serializer validation for a partial update request. -/
def runUpdateValidation (raw : RawTicketInput) : Option ValidatedUpdate :=
  (validateOptField validate_title raw.title).bind fun t =>
    (validateOptField validate_description raw.description).bind fun d =>
      (validateOptChoice categoryValues raw.category).bind fun c =>
        (validateOptChoice priorityValues raw.priority).bind fun p =>
          (validateOptChoice statusValues raw.status).bind fun s =>
            some ⟨t, d, c, p, s⟩

/-- views.py TicketViewSet.perform_create: score sentiment and urgency on
the validated title and description and save the ticket with the validated
fields, the scored signals and the model default for a missing status. -/
def perform_create (o : LLMOutcome) (vd : ValidatedCreate) : Ticket :=
  let ai := score_sentiment_urgency vd.title vd.description o
  { title := vd.title
    description := vd.description
    category := vd.category
    priority := vd.priority
    status := vd.status.getD "open"
    sentiment := ai.sentiment
    urgency_score := ai.urgency_score }

/-- serializer.save on an update: overwrite exactly the fields present in
the validated data. -/
def applyUpdateFields (inst : Ticket) (vd : ValidatedUpdate) : Ticket :=
  { inst with
    title := vd.title.getD inst.title
    description := vd.description.getD inst.description
    category := vd.category.getD inst.category
    priority := vd.priority.getD inst.priority
    status := vd.status.getD inst.status }

/-- views.py TicketViewSet.perform_update: when the validated data holds a
title or a description, rescore sentiment and urgency on the effective
title and description and save with the extra signal fields; otherwise
save the validated data alone. -/
def perform_update (o : LLMOutcome) (inst : Ticket) (vd : ValidatedUpdate) : Ticket :=
  if vd.title.isSome || vd.description.isSome then
    let title := vd.title.getD inst.title
    let description := vd.description.getD inst.description
    let ai := score_sentiment_urgency title description o
    { applyUpdateFields inst vd with
      sentiment := ai.sentiment
      urgency_score := ai.urgency_score }
  else
    applyUpdateFields inst vd

/-- The POST /tickets/ endpoint over a list-modelled store: on validation
failure nothing is stored; on success the created ticket is appended. -/
def create_view (o : LLMOutcome) (store : List Ticket) (raw : RawTicketInput) :
    Option Ticket × List Ticket :=
  match runCreateValidation raw with
  | Option.none => (Option.none, store)
  | some vd =>
    let t := perform_create o vd
    (some t, store ++ [t])

/-- The PATCH /tickets/{pk}/ endpoint over a list-modelled store, the
ticket addressed by its position: on a missing ticket or validation
failure nothing is stored; on success the ticket is replaced in place. -/
def update_view (o : LLMOutcome) (store : List Ticket) (i : Nat)
    (raw : RawTicketInput) : Option Ticket × List Ticket :=
  match store[i]? with
  | Option.none => (Option.none, store)
  | some inst =>
    match runUpdateValidation raw with
    | Option.none => (Option.none, store)
    | some vd =>
      let t := perform_update o inst vd
      (some t, store.set i t)

/-- The running aggregate of the stats query: one counter per Count
annotation and the running sum behind Avg(urgency_score). -/
structure Agg where
  total : Nat
  opens : Nat
  pLow : Nat
  pMedium : Nat
  pHigh : Nat
  pCritical : Nat
  cBilling : Nat
  cTechnical : Nat
  cAccount : Nat
  cGeneral : Nat
  sCalm : Nat
  sNeutral : Nat
  sFrustrated : Nat
  sAngry : Nat
  urgSum : Int
deriving DecidableEq, Repr

def Agg.init : Agg := ⟨0, 0, 0, 0, 0, 0, 0, 0, 0, 0, 0, 0, 0, 0, 0⟩

/-- One row of the aggregate scan of views.py TicketViewSet.stats: each
filtered Count increments when its condition holds, and the urgency sum
grows by the urgency score of the row. -/
def aggStep (a : Agg) (t : Ticket) : Agg :=
  { total := a.total + 1
    opens := a.opens + (if t.status == "open" then 1 else 0)
    pLow := a.pLow + (if t.priority == "low" then 1 else 0)
    pMedium := a.pMedium + (if t.priority == "medium" then 1 else 0)
    pHigh := a.pHigh + (if t.priority == "high" then 1 else 0)
    pCritical := a.pCritical + (if t.priority == "critical" then 1 else 0)
    cBilling := a.cBilling + (if t.category == "billing" then 1 else 0)
    cTechnical := a.cTechnical + (if t.category == "technical" then 1 else 0)
    cAccount := a.cAccount + (if t.category == "account" then 1 else 0)
    cGeneral := a.cGeneral + (if t.category == "general" then 1 else 0)
    sCalm := a.sCalm + (if t.sentiment == "calm" then 1 else 0)
    sNeutral := a.sNeutral + (if t.sentiment == "neutral" then 1 else 0)
    sFrustrated := a.sFrustrated + (if t.sentiment == "frustrated" then 1 else 0)
    sAngry := a.sAngry + (if t.sentiment == "angry" then 1 else 0)
    urgSum := a.urgSum + t.urgency_score }

/-- Ticket.objects.aggregate(...) of the stats action: a single scan of
the store. -/
def aggregate (store : List Ticket) : Agg :=
  store.foldl aggStep Agg.init

/-- The stats response body, with the nested breakdown dicts flattened to
one field per entry.  avg_tickets_per_day is not modelled: it needs the
created_at timestamps, which are outside the embedded state, and no claim
mentions it. -/
structure Stats where
  total_tickets : Nat
  open_tickets : Nat
  priority_low : Nat
  priority_medium : Nat
  priority_high : Nat
  priority_critical : Nat
  category_billing : Nat
  category_technical : Nat
  category_account : Nat
  category_general : Nat
  sentiment_calm : Nat
  sentiment_neutral : Nat
  sentiment_frustrated : Nat
  sentiment_angry : Nat
  avg_urgency_score : ℚ
deriving DecidableEq, Repr

/-- views.py TicketViewSet.stats: run the aggregate scan and assemble the
response; Coalesce turns the average of an empty table into 0.  The
endpoint performs no write, so the store component of the result is the
input store. -/
def stats_view (store : List Ticket) : Stats × List Ticket :=
  let a := aggregate store
  ({ total_tickets := a.total
     open_tickets := a.opens
     priority_low := a.pLow
     priority_medium := a.pMedium
     priority_high := a.pHigh
     priority_critical := a.pCritical
     category_billing := a.cBilling
     category_technical := a.cTechnical
     category_account := a.cAccount
     category_general := a.cGeneral
     sentiment_calm := a.sCalm
     sentiment_neutral := a.sNeutral
     sentiment_frustrated := a.sFrustrated
     sentiment_angry := a.sAngry
     avg_urgency_score := if a.total = 0 then 0 else (a.urgSum : ℚ) / (a.total : ℚ) },
   store)

/-- The number of store tickets satisfying a condition (the claim-side
reading of a filtered count). -/
def countWhere (p : Ticket → Bool) (store : List Ticket) : Nat :=
  (store.filter p).length

/-- The starting code points of the Unicode decimal-digit ranges (general
category Nd); each range holds the ten consecutive digits 0 to 9.  The
Python int constructor accepts any of these digits, not only the ASCII
ones. -/
def ndDigitStarts : List Nat :=
  [0x30, 0x660, 0x6F0, 0x7C0, 0x966, 0x9E6, 0xA66, 0xAE6, 0xB66, 0xBE6,
   0xC66, 0xCE6, 0xD66, 0xDE6, 0xE50, 0xED0, 0xF20, 0x1040, 0x1090, 0x17E0,
   0x1810, 0x1946, 0x19D0, 0x1A80, 0x1A90, 0x1B50, 0x1BB0, 0x1C40, 0x1C50,
   0xA620, 0xA8D0, 0xA900, 0xA9D0, 0xA9F0, 0xAA50, 0xABF0, 0xFF10,
   0x104A0, 0x10D30, 0x11066, 0x110F0, 0x11136, 0x111D0, 0x112F0, 0x11450,
   0x114D0, 0x11650, 0x116C0, 0x11730, 0x118E0, 0x11950, 0x11C50, 0x11D50,
   0x11DA0, 0x11F50, 0x16A60, 0x16AC0, 0x16B50,
   0x1D7CE, 0x1D7D8, 0x1D7E2, 0x1D7EC, 0x1D7F6,
   0x1E140, 0x1E2F0, 0x1E4F0, 0x1E950, 0x1FBF0]

/-- The decimal value of a Unicode decimal digit (category Nd), and
Option.none for every other character. -/
def pyDigitVal (c : Char) : Option Nat :=
  let n := c.toNat
  (ndDigitStarts.find? (fun s => s ≤ n && n ≤ s + 9)).map (fun s => n - s)

/-- Model of the Python int constructor on stripped strings: an optional
sign followed by decimal digits (any Unicode Nd digit), with single
underscores allowed between digits; anything else raises (Option.none). -/
def parseDigitsAux (acc : Nat) : List Char → Option Nat
  | [] => some acc
  | c :: rest =>
    match pyDigitVal c with
    | some v => parseDigitsAux (acc * 10 + v) rest
    | Option.none =>
      if c = '_' then
        match rest with
        | [] => Option.none
        | d :: rest2 =>
          match pyDigitVal d with
          | some v => parseDigitsAux (acc * 10 + v) rest2
          | Option.none => Option.none
      else Option.none

/-- Digit-string parsing entry point: the first character must be a digit. -/
def parseNatDigits : List Char → Option Nat
  | [] => Option.none
  | c :: rest =>
    match pyDigitVal c with
    | some v => parseDigitsAux v rest
    | Option.none => Option.none

/-- Python int applied to a string: strip whitespace, optional sign,
decimal digits. -/
def pyParseInt (s : String) : Option Int :=
  match pyStripL s.data with
  | '-' :: rest => (parseNatDigits rest).map (fun n => -(n : Int))
  | '+' :: rest => (parseNatDigits rest).map (fun n => (n : Int))
  | l => (parseNatDigits l).map (fun n => (n : Int))

/-- services/llm.py _env_int: the raw environment value (None when the
variable is unset) is stripped; empty means the default, an unparsable
value means the default, a parsed value below the minimum means the
default. -/
def _env_int (raw : Option String) (default : Int) (min_value : Option Int) : Int :=
  let raw_value := pyStrip (raw.getD "")
  if raw_value = "" then default
  else
    match pyParseInt raw_value with
    | Option.none => default
    | some parsed =>
      match min_value with
      | some m => if parsed < m then default else parsed
      | Option.none => parsed

def DEFAULT_OPENAI_MAX_RETRIES : Int := 0

/-- services/llm.py _get_client: the max_retries argument passed to the
OpenAI constructor, as a function of the OPENAI_MAX_RETRIES environment
variable. -/
def client_max_retries (env : Option String) : Int :=
  _env_int env DEFAULT_OPENAI_MAX_RETRIES (some 0)

/-- A failing classify outcome: an exception, or a payload rejected by
_validate_classification_payload. -/
def classifyFails : LLMOutcome → Prop
  | .exn => True
  | .returns v => _validate_classification_payload v = Option.none

/-- A failing scoring outcome: an exception, or a payload rejected by
_validate_sentiment_urgency_payload. -/
def scoreFails : LLMOutcome → Prop
  | .exn => True
  | .returns v => _validate_sentiment_urgency_payload v = Option.none

/-- A failing title outcome: an exception, or a payload from which no
normalized title is extracted. -/
def titleFails : LLMOutcome → Prop
  | .exn => True
  | .returns v => titleFromPayload v = Option.none

/-- Every whitespace character of the list is a plain space: the shape of
a collapsed description. -/
def spacedOnly (l : List Char) : Prop :=
  ∀ c ∈ l, pyIsSpace c = true → c = ' '

/-- A non-empty character list with no leading and no trailing
whitespace. -/
def trimmedNonempty (l : List Char) : Prop :=
  l ≠ [] ∧ (l.head?.all fun c => !pyIsSpace c) = true ∧
    (l.getLast?.all fun c => !pyIsSpace c) = true

instance (l : List Char) : Decidable (spacedOnly l) := by
  unfold spacedOnly; infer_instance

instance (l : List Char) : Decidable (trimmedNonempty l) := by
  unfold trimmedNonempty; infer_instance

/-- a is a prefix of l. -/
def isPrefL (a l : List Char) : Prop := ∃ t, a ++ t = l

/-- a is a suffix of l. -/
def isSufL (a l : List Char) : Prop := ∃ u, u ++ a = l

/-- a is a contiguous substring of l. -/
def isInfL (a l : List Char) : Prop := ∃ u t, u ++ a ++ t = l

theorem isPrefL_trans {a b l : List Char} (h1 : isPrefL a b) (h2 : isPrefL b l) :
    isPrefL a l := by
  obtain ⟨t1, rfl⟩ := h1
  obtain ⟨t2, rfl⟩ := h2
  exact ⟨t1 ++ t2, by simp⟩

theorem isPrefL_subset {a l : List Char} (h : isPrefL a l) : ∀ c ∈ a, c ∈ l := by
  obtain ⟨t, rfl⟩ := h
  intro c hc
  exact List.mem_append_left _ hc

theorem isSufL_subset {a l : List Char} (h : isSufL a l) : ∀ c ∈ a, c ∈ l := by
  obtain ⟨u, rfl⟩ := h
  intro c hc
  exact List.mem_append_right _ hc

theorem isPrefL_head {a l : List Char} (h : isPrefL a l) (ha : a ≠ []) :
    l.head? = a.head? := by
  obtain ⟨t, rfl⟩ := h
  exact List.head?_append_of_ne_nil a ha

theorem isSufL_last {a l : List Char} (h : isSufL a l) (ha : a ≠ []) :
    l.getLast? = a.getLast? := by
  obtain ⟨u, rfl⟩ := h
  exact List.getLast?_append_of_ne_nil u ha

theorem isInfL_of_pref_suf {a b l : List Char} (h1 : isPrefL a b) (h2 : isSufL b l) :
    isInfL a l := by
  obtain ⟨t, rfl⟩ := h1
  obtain ⟨u, rfl⟩ := h2
  exact ⟨u, t, by simp⟩

theorem isInfL_of_pref_inf {a b l : List Char} (h1 : isPrefL a b) (h2 : isInfL b l) :
    isInfL a l := by
  obtain ⟨t, rfl⟩ := h1
  obtain ⟨u, v, rfl⟩ := h2
  exact ⟨u, t ++ v, by simp⟩

theorem isInfL_subset {a l : List Char} (h : isInfL a l) : ∀ c ∈ a, c ∈ l := by
  obtain ⟨u, v, rfl⟩ := h
  intro c hc
  exact List.mem_append_left _ (List.mem_append_right _ hc)

theorem rdrop_pref (p : Char → Bool) (l : List Char) :
    isPrefL (List.rdropWhile p l) l :=
  List.rdropWhile_prefix p l

theorem drop_suf (p : Char → Bool) (l : List Char) :
    isSufL (l.dropWhile p) l :=
  List.dropWhile_suffix p

theorem take_pref (n : Nat) (l : List Char) : isPrefL (l.take n) l :=
  List.take_prefix n l

theorem dropWhile_head_not {p : Char → Bool} {l : List Char} {c : Char}
    (h : (l.dropWhile p).head? = some c) : p c = false := by
  have h2 := List.head?_dropWhile_not p l
  rw [h] at h2
  exact h2

theorem rdropWhile_last_false {p : Char → Bool} {l : List Char} {c : Char}
    (h : (List.rdropWhile p l).getLast? = some c) : p c = false := by
  have hne : List.rdropWhile p l ≠ [] := by
    intro hnil
    rw [hnil] at h
    exact absurd h (by simp)
  have h2 := List.rdropWhile_last_not (l := l) (p := p) hne
  have h3 : (List.rdropWhile p l).getLast hne = c := by
    have := List.getLast?_eq_getLast (List.rdropWhile p l) hne
    rw [this] at h
    exact Option.some.inj h
  rw [h3] at h2
  simpa using h2

theorem rdropWhile_nonempty {p : Char → Bool} {l : List Char} {c : Char}
    (hc : c ∈ l) (hpc : p c = false) : List.rdropWhile p l ≠ [] := by
  intro hnil
  rw [List.rdropWhile_eq_nil_iff] at hnil
  rw [hnil c hc] at hpc
  exact absurd hpc (by simp)

theorem pyStripL_subset (l : List Char) : ∀ c ∈ pyStripL l, c ∈ l := by
  intro c hc
  have h1 := isPrefL_subset (rdrop_pref pyIsSpace (l.dropWhile pyIsSpace)) c hc
  exact isSufL_subset (drop_suf pyIsSpace l) c h1

theorem pyStripL_trimmed (l : List Char) (h : pyStripL l ≠ []) :
    trimmedNonempty (pyStripL l) := by
  refine ⟨h, ?_, ?_⟩
  · rcases hh : (pyStripL l).head? with _ | c
    · rw [List.head?_eq_none_iff] at hh
      exact absurd hh h
    · have hhead : (l.dropWhile pyIsSpace).head? = (pyStripL l).head? :=
        isPrefL_head (rdrop_pref pyIsSpace (l.dropWhile pyIsSpace)) h
      rw [hh] at hhead
      simp [dropWhile_head_not hhead]
  · rcases hh : (pyStripL l).getLast? with _ | c
    · rw [List.getLast?_eq_none_iff] at hh
      exact absurd hh h
    · simp [rdropWhile_last_false hh]

theorem spacedOnly_mono {a l : List Char} (hsub : ∀ c ∈ a, c ∈ l)
    (hl : spacedOnly l) : spacedOnly a :=
  fun c hc => hl c (hsub c hc)

theorem wordsStep_good (c : Char) (r : List Char × List (List Char))
    (hr : (∀ x ∈ r.1, pyIsSpace x = false) ∧
      ∀ w ∈ r.2, w ≠ [] ∧ ∀ x ∈ w, pyIsSpace x = false) :
    (∀ x ∈ (wordsStep c r).1, pyIsSpace x = false) ∧
      ∀ w ∈ (wordsStep c r).2, w ≠ [] ∧ ∀ x ∈ w, pyIsSpace x = false := by
  by_cases h : pyIsSpace c
  · by_cases he : r.1 = []
    · constructor
      · intro x hx
        rw [wordsStep, if_pos h, if_pos he] at hx
        exact hr.1 x hx
      · intro w2 hw2
        rw [wordsStep, if_pos h, if_pos he] at hw2
        exact hr.2 w2 hw2
    · constructor
      · intro x hx
        rw [wordsStep, if_pos h, if_neg he] at hx
        simp at hx
      · intro w2 hw2
        rw [wordsStep, if_pos h, if_neg he] at hw2
        rcases List.mem_cons.mp hw2 with h2 | h2
        · subst h2
          exact ⟨he, hr.1⟩
        · exact hr.2 w2 h2
  · constructor
    · intro x hx
      rw [wordsStep, if_neg h] at hx
      rcases List.mem_cons.mp hx with h2 | h2
      · subst h2
        simpa using h
      · exact hr.1 x h2
    · intro w2 hw2
      rw [wordsStep, if_neg h] at hw2
      exact hr.2 w2 hw2

theorem foldr_words_good (s : List Char) :
    (∀ x ∈ (s.foldr wordsStep ([], [])).1, pyIsSpace x = false) ∧
      ∀ w ∈ (s.foldr wordsStep ([], [])).2, w ≠ [] ∧ ∀ x ∈ w, pyIsSpace x = false := by
  induction s with
  | nil => simp
  | cons c s ih => exact wordsStep_good c _ ih

theorem pyWords_good (s : List Char) :
    ∀ w ∈ pyWords s, w ≠ [] ∧ ∀ x ∈ w, pyIsSpace x = false := by
  intro w hw
  have hg := foldr_words_good s
  simp only [pyWords] at hw
  by_cases he : (s.foldr wordsStep ([], [])).1 = []
  · rw [if_pos he] at hw
    exact hg.2 w hw
  · rw [if_neg he] at hw
    rcases List.mem_cons.mp hw with h2 | h2
    · subst h2
      exact ⟨he, hg.1⟩
    · exact hg.2 w h2

theorem joinWords_spacedOnly (ws : List (List Char))
    (h : ∀ w ∈ ws, ∀ x ∈ w, pyIsSpace x = false) : spacedOnly (joinWords ws) := by
  induction ws with
  | nil => intro c hc; simp [joinWords] at hc
  | cons w ws ih =>
    cases ws with
    | nil =>
      intro c hc hws
      simp only [joinWords] at hc
      rw [h w (by simp) c hc] at hws
      exact absurd hws (by simp)
    | cons w2 ws2 =>
      intro c hc hws
      simp only [joinWords] at hc
      rcases List.mem_append.mp hc with h2 | h2
      · rw [h w (by simp) c h2] at hws
        exact absurd hws (by simp)
      · rcases List.mem_cons.mp h2 with h3 | h3
        · exact h3
        · exact ih (fun w hw => h w (List.mem_cons_of_mem _ hw)) c h3 hws

theorem collapseWS_spacedOnly (l : List Char) : spacedOnly (collapseWS l) := by
  have h1 := joinWords_spacedOnly (pyWords l) (fun w hw => (pyWords_good l w hw).2)
  exact spacedOnly_mono (pyStripL_subset _) h1

theorem isPrefL_ne_nil {a l : List Char} (h : isPrefL a l) (ha : a ≠ []) : l ≠ [] := by
  obtain ⟨t, rfl⟩ := h
  simp [ha]

theorem isPrefL_length_le {a l : List Char} (h : isPrefL a l) : a.length ≤ l.length := by
  obtain ⟨t, rfl⟩ := h
  simp

theorem head?_mem {l : List Char} {c : Char} (h : l.head? = some c) : c ∈ l := by
  cases l with
  | nil => simp at h
  | cons a t =>
    simp only [List.head?_cons, Option.some.injEq] at h
    subst h
    simp

theorem sentFirst_pref (l : List Char) : isPrefL (sentFirst l) l := by
  induction l with
  | nil => exact ⟨[], rfl⟩
  | cons c rest ih =>
    cases rest with
    | nil => exact ⟨[], rfl⟩
    | cons d rest2 =>
      by_cases h : ((c = '.' || c = '!' || c = '?') && pyIsSpace d) = true
      · refine ⟨d :: rest2, ?_⟩
        rw [show sentFirst (c :: d :: rest2) = [c] by rw [sentFirst, if_pos h]]
        rfl
      · obtain ⟨t, ht⟩ := ih
        refine ⟨t, ?_⟩
        rw [show sentFirst (c :: d :: rest2) = c :: sentFirst (d :: rest2) by
          rw [sentFirst, if_neg h]]
        rw [List.cons_append, ht]

theorem contains_false_ne {cs : List Char} {a c : Char}
    (h : cs.contains c = false) (ha : a ∈ cs) : c ≠ a := by
  intro heq
  have h2 : cs.contains c = true := by
    rw [heq]
    exact List.elem_eq_true_of_mem ha
  rw [h2] at h
  exact absurd h (by simp)

theorem cleanCore_inf (l : List Char) : isInfL (cleanCore l) l := by
  have hp1 : isPrefL (cleanCore l)
      (List.rdropWhile (fun c => quoteChars.contains c)
        (l.dropWhile fun c => quoteChars.contains c)) := rdrop_pref _ _
  have hp2 : isPrefL
      (List.rdropWhile (fun c => quoteChars.contains c)
        (l.dropWhile fun c => quoteChars.contains c))
      (l.dropWhile fun c => quoteChars.contains c) := rdrop_pref _ _
  have hs : isSufL (l.dropWhile fun c => quoteChars.contains c) l := drop_suf _ _
  exact isInfL_of_pref_suf (isPrefL_trans hp1 hp2) hs

theorem cleanCore_subset (l : List Char) : ∀ c ∈ cleanCore l, c ∈ l :=
  isInfL_subset (cleanCore_inf l)

theorem not_space_of_so {l : List Char} {c : Char} (hso : spacedOnly l)
    (hc : c ∈ l) (hne : c ≠ ' ') : pyIsSpace c = false := by
  cases hsp : pyIsSpace c with
  | false => rfl
  | true => exact absurd (hso c hc hsp) hne

theorem cleanCore_trimmed (l : List Char) (hso : spacedOnly l)
    (hne : cleanCore l ≠ []) : trimmedNonempty (cleanCore l) := by
  have hp1 : isPrefL (cleanCore l)
      (List.rdropWhile (fun c => quoteChars.contains c)
        (l.dropWhile fun c => quoteChars.contains c)) := rdrop_pref _ _
  have hstrip_ne : List.rdropWhile (fun c => quoteChars.contains c)
      (l.dropWhile fun c => quoteChars.contains c) ≠ [] :=
    isPrefL_ne_nil hp1 hne
  have hdrop_ne : (l.dropWhile fun c => quoteChars.contains c) ≠ [] :=
    isPrefL_ne_nil (rdrop_pref _ _) hstrip_ne
  refine ⟨hne, ?_, ?_⟩
  · rcases hh : (cleanCore l).head? with _ | c
    · rw [List.head?_eq_none_iff] at hh
      exact absurd hh hne
    · have h1 : (List.rdropWhile (fun c => quoteChars.contains c)
          (l.dropWhile fun c => quoteChars.contains c)).head? = some c := by
        rw [isPrefL_head hp1 hne]
        exact hh
      have h2 : (l.dropWhile fun c => quoteChars.contains c).head? = some c := by
        rw [isPrefL_head (rdrop_pref _ _) hstrip_ne]
        exact h1
      have h3 : quoteChars.contains c = false := dropWhile_head_not h2
      have hcl : c ∈ l := isSufL_subset (drop_suf _ _) c (head?_mem h2)
      have hcs : pyIsSpace c = false :=
        not_space_of_so hso hcl (contains_false_ne h3 (by simp [quoteChars]))
      simp [hcs]
  · rcases hh : (cleanCore l).getLast? with _ | c
    · rw [List.getLast?_eq_none_iff] at hh
      exact absurd hh hne
    · have h3 : endPunct.contains c = false := rdropWhile_last_false hh
      have hcl : c ∈ l := cleanCore_subset l c (List.mem_of_mem_getLast? hh)
      have hcs : pyIsSpace c = false :=
        not_space_of_so hso hcl (contains_false_ne h3 (by simp [endPunct]))
      simp [hcs]

theorem truncateTo_pref (k : Nat) (l : List Char) : isPrefL (truncateTo k l) l := by
  unfold truncateTo
  split
  · exact isPrefL_trans (rdrop_pref _ _) (take_pref _ _)
  · exact ⟨[], by simp⟩

theorem truncateTo_length_le (k : Nat) (l : List Char) :
    (truncateTo k l).length ≤ k := by
  unfold truncateTo
  split
  next h =>
    have h1 := isPrefL_length_le (rdrop_pref pyIsSpace (l.take k))
    have h2 : (l.take k).length ≤ k := by
      simp [List.length_take]
    omega
  next h => omega

theorem truncateTo_trimmed (k : Nat) (l : List Char) (hk : 0 < k)
    (h : trimmedNonempty l) : trimmedNonempty (truncateTo k l) := by
  obtain ⟨hlne, hhead, hlast⟩ := h
  unfold truncateTo
  split
  next hlen =>
    rcases hh : l.head? with _ | c
    · rw [List.head?_eq_none_iff] at hh
      exact absurd hh hlne
    have hc : pyIsSpace c = false := by
      rw [hh] at hhead
      simpa using hhead
    have htne : l.take k ≠ [] := by
      intro hnil
      have := congrArg List.length hnil
      simp only [List.length_take, List.length_nil] at this
      omega
    have htake_head : (l.take k).head? = some c := by
      rw [← isPrefL_head (take_pref k l) htne, hh]
    have hcin : c ∈ l.take k := head?_mem htake_head
    have hrne : List.rdropWhile pyIsSpace (l.take k) ≠ [] :=
      rdropWhile_nonempty hcin hc
    refine ⟨hrne, ?_, ?_⟩
    · rw [← isPrefL_head (rdrop_pref pyIsSpace (l.take k)) hrne, htake_head]
      simp [hc]
    · rcases hh2 : (List.rdropWhile pyIsSpace (l.take k)).getLast? with _ | c2
      · rw [List.getLast?_eq_none_iff] at hh2
        exact absurd hh2 hrne
      · simp [rdropWhile_last_false hh2]
  next hlen => exact ⟨hlne, hhead, hlast⟩

theorem firstSentenceOfL_spacedOnly (d : List Char) :
    spacedOnly (firstSentenceOfL d) := by
  unfold firstSentenceOfL
  split
  · exact collapseWS_spacedOnly d
  · refine spacedOnly_mono ?_ (collapseWS_spacedOnly d)
    intro c hc
    exact isPrefL_subset (sentFirst_pref _) c (pyStripL_subset _ c hc)

theorem fallbackTitleL_good (d : List Char) :
    trimmedNonempty (fallbackTitleL d) ∧
      (fallbackTitleL d).length ≤ PREFERRED_TITLE_MAX_LENGTH ∧
      (fallbackTitleL d = DEFAULT_TITLE.data ∨
        isInfL (fallbackTitleL d) (firstSentenceOfL d)) := by
  have hdef : trimmedNonempty DEFAULT_TITLE.data ∧
      DEFAULT_TITLE.data.length ≤ PREFERRED_TITLE_MAX_LENGTH := by
    constructor
    · decide
    · decide
  unfold fallbackTitleL
  split
  next => exact ⟨hdef.1, hdef.2, Or.inl rfl⟩
  next h1 =>
    split
    next => exact ⟨hdef.1, hdef.2, Or.inl rfl⟩
    next h2 =>
      split
      next => exact ⟨hdef.1, hdef.2, Or.inl rfl⟩
      next h3 =>
        refine ⟨?_, truncateTo_length_le _ _, Or.inr ?_⟩
        · exact truncateTo_trimmed _ _ (by decide)
            (cleanCore_trimmed _ (firstSentenceOfL_spacedOnly d) h2)
        · exact isInfL_of_pref_inf (truncateTo_pref _ _) (cleanCore_inf _)

theorem normalizeTitleL_good (raw : List Char) (t : List Char)
    (h : normalizeTitleL raw = some t) :
    trimmedNonempty t ∧ t.length ≤ HARD_TITLE_MAX_LENGTH := by
  unfold normalizeTitleL at h
  split at h
  next => exact absurd h (by simp)
  next h1 =>
    split at h
    next => exact absurd h (by simp)
    next h2 =>
      split at h
      next => exact absurd h (by simp)
      next h3 =>
        have ht : t = truncateTo HARD_TITLE_MAX_LENGTH (cleanCore (collapseWS raw)) :=
          (Option.some.inj h).symm
        subst ht
        refine ⟨?_, truncateTo_length_le _ _⟩
        exact truncateTo_trimmed _ _ (by decide)
          (cleanCore_trimmed _ (collapseWS_spacedOnly raw) h2)

theorem titleFromEntry_good (w : PyVal) (t : String)
    (h : titleFromEntry w = some t) :
    trimmedNonempty t.data ∧ t.length ≤ HARD_TITLE_MAX_LENGTH := by
  cases w with
  | str s =>
    simp only [titleFromEntry] at h
    rw [Option.map_eq_some'] at h
    obtain ⟨l, hl, rfl⟩ := h
    exact normalizeTitleL_good s.data l hl
  | none => exact absurd h (by simp [titleFromEntry])
  | pyBool b => exact absurd h (by simp [titleFromEntry])
  | int n => exact absurd h (by simp [titleFromEntry])
  | float q => exact absurd h (by simp [titleFromEntry])
  | list xs => exact absurd h (by simp [titleFromEntry])
  | dict entries => exact absurd h (by simp [titleFromEntry])

theorem titleFromPayload_good (v : PyVal) (t : String)
    (h : titleFromPayload v = some t) :
    trimmedNonempty t.data ∧ t.length ≤ HARD_TITLE_MAX_LENGTH := by
  cases v with
  | dict entries =>
    rw [show titleFromPayload (PyVal.dict entries)
        = titleFromEntry (PyVal.get entries "suggested_title") from rfl] at h
    exact titleFromEntry_good _ t h
  | none => exact absurd h (by simp [titleFromPayload])
  | pyBool b => exact absurd h (by simp [titleFromPayload])
  | int n => exact absurd h (by simp [titleFromPayload])
  | float q => exact absurd h (by simp [titleFromPayload])
  | str s => exact absurd h (by simp [titleFromPayload])
  | list xs => exact absurd h (by simp [titleFromPayload])

theorem checkChoice_sound {values : List String} {v : PyVal} {c : String}
    (h : checkChoice values v = some c) : c ∈ values := by
  cases v with
  | str s =>
    simp only [checkChoice] at h
    split at h
    next hc =>
      rw [← Option.some.inj h]
      exact List.mem_of_elem_eq_true hc
    next => exact absurd h (by simp)
  | none => exact absurd h (by simp [checkChoice])
  | pyBool b => exact absurd h (by simp [checkChoice])
  | int n => exact absurd h (by simp [checkChoice])
  | float q => exact absurd h (by simp [checkChoice])
  | list xs => exact absurd h (by simp [checkChoice])
  | dict entries => exact absurd h (by simp [checkChoice])

theorem checkChoice_complete {values : List String} {c : String} (hc : c ∈ values) :
    checkChoice values (PyVal.str c) = some c := by
  simp only [checkChoice]
  rw [if_pos (List.elem_eq_true_of_mem hc)]

theorem checkUrgency_sound {v : PyVal} {n : Int} (h : checkUrgency v = some n) :
    0 ≤ n ∧ n ≤ 100 := by
  unfold checkUrgency at h
  rw [Option.bind_eq_some] at h
  obtain ⟨m, hm, h⟩ := h
  split at h
  next => exact absurd h (by simp)
  next hr =>
    rw [← Option.some.inj h]
    simp only [Bool.or_eq_true, decide_eq_true_eq, not_or] at hr
    omega

theorem validate_classification_sound (v : PyVal) (cls : Classification)
    (h : _validate_classification_payload v = some cls) :
    cls.suggested_category ∈ categoryValues ∧
      cls.suggested_priority ∈ priorityValues := by
  cases v with
  | dict d =>
    simp only [_validate_classification_payload, Option.bind_eq_some] at h
    obtain ⟨c, h1, p, h2, h3⟩ := h
    rw [← Option.some.inj h3]
    exact ⟨checkChoice_sound h1, checkChoice_sound h2⟩
  | none => exact absurd h (by simp [_validate_classification_payload])
  | pyBool b => exact absurd h (by simp [_validate_classification_payload])
  | int n => exact absurd h (by simp [_validate_classification_payload])
  | float q => exact absurd h (by simp [_validate_classification_payload])
  | str s => exact absurd h (by simp [_validate_classification_payload])
  | list xs => exact absurd h (by simp [_validate_classification_payload])

theorem validate_su_sound (v : PyVal) (sig : Signals)
    (h : _validate_sentiment_urgency_payload v = some sig) :
    sig.sentiment ∈ sentimentValues ∧
      0 ≤ sig.urgency_score ∧ sig.urgency_score ≤ 100 := by
  cases v with
  | dict d =>
    simp only [_validate_sentiment_urgency_payload, Option.bind_eq_some] at h
    obtain ⟨s, h1, n, h2, h3⟩ := h
    rw [← Option.some.inj h3]
    exact ⟨checkChoice_sound h1, (checkUrgency_sound h2).1, (checkUrgency_sound h2).2⟩
  | none => exact absurd h (by simp [_validate_sentiment_urgency_payload])
  | pyBool b => exact absurd h (by simp [_validate_sentiment_urgency_payload])
  | int n => exact absurd h (by simp [_validate_sentiment_urgency_payload])
  | float q => exact absurd h (by simp [_validate_sentiment_urgency_payload])
  | str s => exact absurd h (by simp [_validate_sentiment_urgency_payload])
  | list xs => exact absurd h (by simp [_validate_sentiment_urgency_payload])

theorem score_signals_valid (t d : String) (o : LLMOutcome) :
    (score_sentiment_urgency t d o).sentiment ∈ sentimentValues ∧
      0 ≤ (score_sentiment_urgency t d o).urgency_score ∧
      (score_sentiment_urgency t d o).urgency_score ≤ 100 := by
  cases o with
  | exn =>
    rw [show score_sentiment_urgency t d LLMOutcome.exn = DEFAULT_SENTIMENT_URGENCY
      from rfl]
    exact ⟨by decide, by decide, by decide⟩
  | returns v =>
    rcases hv : _validate_sentiment_urgency_payload v with _ | sig
    · rw [show score_sentiment_urgency t d (LLMOutcome.returns v)
          = (_validate_sentiment_urgency_payload v).getD DEFAULT_SENTIMENT_URGENCY
        from rfl, hv, Option.getD_none]
      exact ⟨by decide, by decide, by decide⟩
    · rw [show score_sentiment_urgency t d (LLMOutcome.returns v)
          = (_validate_sentiment_urgency_payload v).getD DEFAULT_SENTIMENT_URGENCY
        from rfl, hv, Option.getD_some]
      exact validate_su_sound v sig hv

theorem classify_fail_default (d : String) (o : LLMOutcome) (h : classifyFails o) :
    classify_ticket d o = DEFAULT_CLASSIFICATION := by
  cases o with
  | exn => rfl
  | returns v =>
    unfold classifyFails at h
    simp [classify_ticket, h]

theorem score_fail_default (t d : String) (o : LLMOutcome) (h : scoreFails o) :
    score_sentiment_urgency t d o = DEFAULT_SENTIMENT_URGENCY := by
  cases o with
  | exn => rfl
  | returns v =>
    unfold scoreFails at h
    simp [score_sentiment_urgency, h]

theorem title_fail_fallback (d : String) (o : LLMOutcome) (h : titleFails o) :
    suggest_title d o = _fallback_title d := by
  cases o with
  | exn => rfl
  | returns v =>
    unfold titleFails at h
    simp [suggest_title, h]

theorem validate_title_some {t ct : String} (h : validate_title t = some ct) :
    ct = pyStrip t := by
  simp only [validate_title] at h
  split at h
  next => exact absurd h (by simp)
  next =>
    split at h
    next => exact absurd h (by simp)
    next => exact (Option.some.inj h).symm

theorem validate_title_none_iff (t : String) :
    validate_title t = Option.none ↔
      pyStrip t = "" ∨ (pyStrip t).length > 200 := by
  simp only [validate_title]
  split
  next h1 => simp [h1]
  next h1 =>
    split
    next h2 => simp [h1, h2]
    next h2 => simp [h1, h2]

theorem validate_description_some {d cd : String}
    (h : validate_description d = some cd) : cd = pyStrip d := by
  simp only [validate_description] at h
  split at h
  next => exact absurd h (by simp)
  next => exact (Option.some.inj h).symm

theorem validate_description_none_iff (d : String) :
    validate_description d = Option.none ↔ pyStrip d = "" := by
  simp only [validate_description]
  split
  next h1 => simp [h1]
  next h1 => simp [h1]

theorem runCreateValidation_sound (raw : RawTicketInput) (vd : ValidatedCreate)
    (h : runCreateValidation raw = some vd) :
    vd.category ∈ categoryValues ∧ vd.priority ∈ priorityValues ∧
      (∀ st, vd.status = some st → st ∈ statusValues) ∧
      (∃ t, raw.title = some t ∧ vd.title = pyStrip t) ∧
      (∃ d2, raw.description = some d2 ∧ vd.description = pyStrip d2) := by
  simp only [runCreateValidation, Option.bind_eq_some] at h
  obtain ⟨t, hT, d, hD, c, hC, p, hP, ct, hct, cd, hcd, h⟩ := h
  split at h
  next hcp =>
    rw [Bool.and_eq_true] at hcp
    have hc_mem : c ∈ categoryValues := List.mem_of_elem_eq_true hcp.1
    have hp_mem : p ∈ priorityValues := List.mem_of_elem_eq_true hcp.2
    split at h
    next hS =>
      have hvd : vd = ⟨ct, cd, c, p, Option.none⟩ := (Option.some.inj h).symm
      subst hvd
      refine ⟨hc_mem, hp_mem, by simp, ⟨t, hT, validate_title_some hct⟩,
        ⟨d, hD, validate_description_some hcd⟩⟩
    next st hS =>
      split at h
      next hst =>
        have hvd : vd = ⟨ct, cd, c, p, some st⟩ := (Option.some.inj h).symm
        subst hvd
        refine ⟨hc_mem, hp_mem, ?_, ⟨t, hT, validate_title_some hct⟩,
          ⟨d, hD, validate_description_some hcd⟩⟩
        intro st2 hst2
        rw [← Option.some.inj hst2]
        exact List.mem_of_elem_eq_true hst
      next => exact absurd h (by simp)
  next => exact absurd h (by simp)

theorem runCreateValidation_rejects_title (raw : RawTicketInput) (t : String)
    (hT : raw.title = some t) (hv : validate_title t = Option.none) :
    runCreateValidation raw = Option.none := by
  unfold runCreateValidation
  rw [hT]
  cases hD : raw.description <;> cases hC : raw.category <;>
    cases hP : raw.priority <;> simp [hv]

theorem runCreateValidation_rejects_description (raw : RawTicketInput) (d : String)
    (hD : raw.description = some d) (hv : validate_description d = Option.none) :
    runCreateValidation raw = Option.none := by
  unfold runCreateValidation
  rw [hD]
  cases hT : raw.title <;> cases hC : raw.category <;>
    cases hP : raw.priority <;> simp [hv]

theorem validateOptField_sound {f : String → Option String} {x : Option String}
    {r : Option String} (h : validateOptField f x = some r) :
    (x = Option.none ∧ r = Option.none) ∨
      ∃ v y, x = some v ∧ f v = some y ∧ r = some y := by
  cases x with
  | none => exact Or.inl ⟨rfl, (Option.some.inj h).symm⟩
  | some v =>
    simp only [validateOptField] at h
    rw [Option.map_eq_some'] at h
    obtain ⟨y, hy, hr⟩ := h
    exact Or.inr ⟨v, y, rfl, hy, hr.symm⟩

theorem validateOptChoice_sound {values : List String} {x : Option String}
    {r : Option String} (h : validateOptChoice values x = some r) :
    (x = Option.none ∧ r = Option.none) ∨
      ∃ v, x = some v ∧ v ∈ values ∧ r = some v := by
  cases x with
  | none => exact Or.inl ⟨rfl, (Option.some.inj h).symm⟩
  | some v =>
    simp only [validateOptChoice] at h
    split at h
    next hc =>
      exact Or.inr ⟨v, rfl, List.mem_of_elem_eq_true hc, (Option.some.inj h).symm⟩
    next => exact absurd h (by simp)

theorem runUpdateValidation_sound (raw : RawTicketInput) (vd : ValidatedUpdate)
    (h : runUpdateValidation raw = some vd) :
    (∀ t, raw.title = some t → vd.title = some (pyStrip t)) ∧
    (∀ d2, raw.description = some d2 → vd.description = some (pyStrip d2)) ∧
    (raw.title = Option.none → vd.title = Option.none) ∧
    (raw.description = Option.none → vd.description = Option.none) ∧
    (∀ c, vd.category = some c → c ∈ categoryValues) ∧
    (∀ p, vd.priority = some p → p ∈ priorityValues) ∧
    (∀ st, vd.status = some st → st ∈ statusValues) := by
  simp only [runUpdateValidation, Option.bind_eq_some] at h
  obtain ⟨ot, hT, od, hD, oc, hC, op, hP, os, hS, hpure⟩ := h
  have hvd : vd = ⟨ot, od, oc, op, os⟩ := (Option.some.inj hpure).symm
  subst hvd
  refine ⟨?_, ?_, ?_, ?_, ?_, ?_, ?_⟩
  · intro t ht
    rw [ht] at hT
    rcases validateOptField_sound hT with ⟨hx, _⟩ | ⟨v, y, hv, hy, hr⟩
    · exact absurd hx (by simp)
    · have hvt : v = t := (Option.some.inj hv).symm
      subst hvt
      show ot = some (pyStrip v)
      rw [hr, validate_title_some hy]
  · intro d2 hd
    rw [hd] at hD
    rcases validateOptField_sound hD with ⟨hx, _⟩ | ⟨v, y, hv, hy, hr⟩
    · exact absurd hx (by simp)
    · have hvd2 : v = d2 := (Option.some.inj hv).symm
      subst hvd2
      show od = some (pyStrip v)
      rw [hr, validate_description_some hy]
  · intro ht
    rw [ht] at hT
    rcases validateOptField_sound hT with ⟨_, hr⟩ | ⟨v, y, hv, _, _⟩
    · exact hr
    · exact absurd hv (by simp)
  · intro hd
    rw [hd] at hD
    rcases validateOptField_sound hD with ⟨_, hr⟩ | ⟨v, y, hv, _, _⟩
    · exact hr
    · exact absurd hv (by simp)
  · intro c hc
    rcases validateOptChoice_sound hC with ⟨_, hr⟩ | ⟨v, _, hmem, hr⟩
    · rw [hr] at hc
      exact absurd hc (by simp)
    · rw [hr] at hc
      rw [← Option.some.inj hc]
      exact hmem
  · intro p hp
    rcases validateOptChoice_sound hP with ⟨_, hr⟩ | ⟨v, _, hmem, hr⟩
    · rw [hr] at hp
      exact absurd hp (by simp)
    · rw [hr] at hp
      rw [← Option.some.inj hp]
      exact hmem
  · intro st hst
    rcases validateOptChoice_sound hS with ⟨_, hr⟩ | ⟨v, _, hmem, hr⟩
    · rw [hr] at hst
      exact absurd hst (by simp)
    · rw [hr] at hst
      rw [← Option.some.inj hst]
      exact hmem

theorem runUpdateValidation_rejects_title (raw : RawTicketInput) (t : String)
    (hT : raw.title = some t) (hv : validate_title t = Option.none) :
    runUpdateValidation raw = Option.none := by
  unfold runUpdateValidation
  rw [hT]
  simp [validateOptField, hv]

theorem runUpdateValidation_rejects_description (raw : RawTicketInput) (d : String)
    (hD : raw.description = some d) (hv : validate_description d = Option.none) :
    runUpdateValidation raw = Option.none := by
  unfold runUpdateValidation
  rw [hD]
  cases hT : raw.title <;> simp [validateOptField, hv]

theorem countWhere_cons (p : Ticket → Bool) (t : Ticket) (l : List Ticket) :
    countWhere p (t :: l) = (if p t = true then 1 else 0) + countWhere p l := by
  simp only [countWhere, List.filter_cons]
  split
  next => simp [List.length_cons]; omega
  next => simp

theorem aggregate_fold (store : List Ticket) (a : Agg) :
    store.foldl aggStep a =
      { total := a.total + store.length
        opens := a.opens + countWhere (fun t => t.status == "open") store
        pLow := a.pLow + countWhere (fun t => t.priority == "low") store
        pMedium := a.pMedium + countWhere (fun t => t.priority == "medium") store
        pHigh := a.pHigh + countWhere (fun t => t.priority == "high") store
        pCritical := a.pCritical + countWhere (fun t => t.priority == "critical") store
        cBilling := a.cBilling + countWhere (fun t => t.category == "billing") store
        cTechnical := a.cTechnical + countWhere (fun t => t.category == "technical") store
        cAccount := a.cAccount + countWhere (fun t => t.category == "account") store
        cGeneral := a.cGeneral + countWhere (fun t => t.category == "general") store
        sCalm := a.sCalm + countWhere (fun t => t.sentiment == "calm") store
        sNeutral := a.sNeutral + countWhere (fun t => t.sentiment == "neutral") store
        sFrustrated := a.sFrustrated + countWhere (fun t => t.sentiment == "frustrated") store
        sAngry := a.sAngry + countWhere (fun t => t.sentiment == "angry") store
        urgSum := a.urgSum + (store.map (fun t => t.urgency_score)).sum } := by
  induction store generalizing a with
  | nil => simp [countWhere]
  | cons t rest ih =>
    rw [List.foldl_cons, ih]
    simp only [countWhere_cons, List.length_cons, List.map_cons, List.sum_cons,
      aggStep, Agg.mk.injEq]
    refine ⟨?_, ?_, ?_, ?_, ?_, ?_, ?_, ?_, ?_, ?_, ?_, ?_, ?_, ?_, ?_⟩ <;> omega

theorem aggregate_spec (store : List Ticket) :
    aggregate store =
      { total := store.length
        opens := countWhere (fun t => t.status == "open") store
        pLow := countWhere (fun t => t.priority == "low") store
        pMedium := countWhere (fun t => t.priority == "medium") store
        pHigh := countWhere (fun t => t.priority == "high") store
        pCritical := countWhere (fun t => t.priority == "critical") store
        cBilling := countWhere (fun t => t.category == "billing") store
        cTechnical := countWhere (fun t => t.category == "technical") store
        cAccount := countWhere (fun t => t.category == "account") store
        cGeneral := countWhere (fun t => t.category == "general") store
        sCalm := countWhere (fun t => t.sentiment == "calm") store
        sNeutral := countWhere (fun t => t.sentiment == "neutral") store
        sFrustrated := countWhere (fun t => t.sentiment == "frustrated") store
        sAngry := countWhere (fun t => t.sentiment == "angry") store
        urgSum := (store.map (fun t => t.urgency_score)).sum } := by
  unfold aggregate
  rw [aggregate_fold]
  simp [Agg.init]

theorem cast_sum_map (store : List Ticket) :
    (((store.map (fun t => t.urgency_score)).sum : ℤ) : ℚ)
      = (store.map (fun t => (t.urgency_score : ℚ))).sum := by
  induction store with
  | nil => simp
  | cons t rest ih =>
    simp only [List.map_cons, List.sum_cons, Int.cast_add, ih]

theorem getD_mem {x : Option String} {d : String} {values : List String}
    (hd : d ∈ values) (hx : ∀ c, x = some c → c ∈ values) : x.getD d ∈ values := by
  cases hs : x with
  | none => simpa using hd
  | some c =>
    simp only [Option.getD_some]
    exact hx c hs

theorem perform_create_valid (o : LLMOutcome) (raw : RawTicketInput)
    (vd : ValidatedCreate) (h : runCreateValidation raw = some vd) :
    validTicket (perform_create o vd) := by
  obtain ⟨hc, hp, hst, _, _⟩ := runCreateValidation_sound raw vd h
  have hsig := score_signals_valid vd.title vd.description o
  exact ⟨hc, hp, getD_mem (by decide) hst, hsig.1, hsig.2.1, hsig.2.2⟩

theorem perform_update_title (o : LLMOutcome) (inst : Ticket) (vd : ValidatedUpdate) :
    (perform_update o inst vd).title = vd.title.getD inst.title := by
  unfold perform_update
  split <;> rfl

theorem perform_update_description (o : LLMOutcome) (inst : Ticket)
    (vd : ValidatedUpdate) :
    (perform_update o inst vd).description = vd.description.getD inst.description := by
  unfold perform_update
  split <;> rfl

theorem perform_update_valid (o : LLMOutcome) (inst : Ticket) (raw : RawTicketInput)
    (vd : ValidatedUpdate) (hinst : validTicket inst)
    (h : runUpdateValidation raw = some vd) :
    validTicket (perform_update o inst vd) := by
  obtain ⟨_, _, _, _, hc, hp, hst⟩ := runUpdateValidation_sound raw vd h
  obtain ⟨hic, hip, hist, hisent, hiu1, hiu2⟩ := hinst
  unfold perform_update
  split
  next hcond =>
    have hsig := score_signals_valid (vd.title.getD inst.title)
      (vd.description.getD inst.description) o
    exact ⟨getD_mem hic hc, getD_mem hip hp, getD_mem hist hst,
      hsig.1, hsig.2.1, hsig.2.2⟩
  next =>
    exact ⟨getD_mem hic hc, getD_mem hip hp, getD_mem hist hst,
      hisent, hiu1, hiu2⟩

theorem suggest_title_good (d : String) (o : LLMOutcome) :
    trimmedNonempty (suggest_title d o).data ∧
      (suggest_title d o).length ≤ HARD_TITLE_MAX_LENGTH := by
  have hfb : trimmedNonempty (_fallback_title d).data ∧
      (_fallback_title d).length ≤ HARD_TITLE_MAX_LENGTH := by
    have := fallbackTitleL_good d.data
    exact ⟨this.1, le_trans this.2.1 (by decide)⟩
  cases o with
  | exn => exact hfb
  | returns v =>
    unfold suggest_title
    rcases htp : titleFromPayload v with _ | t
    · simpa [htp] using hfb
    · simpa [htp] using titleFromPayload_good v t htp

/-- C1 counterexample: the failure result of suggest_title is not a fixed
value; two different descriptions give two different failure titles, so no
single fixed default title exists. -/
theorem C1_title_not_fixed :
    ¬ ∀ d1 d2 : String,
      suggest_title d1 LLMOutcome.exn = suggest_title d2 LLMOutcome.exn := by
  intro h
  exact absurd (h "Printer is broken" "Billing issue") (by decide)

/-- C1 (amended): on any exception or validation failure, classify_ticket
returns the fixed default classification and score_sentiment_urgency the
fixed default signals; suggest_title falls back to the deterministic
description-derived fallback title, which in particular is the fixed
DEFAULT_TITLE whenever the description collapses to nothing. -/
theorem C1_fallback_policy (d : String) (o : LLMOutcome) :
    (classifyFails o → classify_ticket d o = DEFAULT_CLASSIFICATION) ∧
    (scoreFails o → ∀ t, score_sentiment_urgency t d o = DEFAULT_SENTIMENT_URGENCY) ∧
    (titleFails o → suggest_title d o = _fallback_title d) ∧
    (collapseWS d.data = [] → _fallback_title d = DEFAULT_TITLE) := by
  refine ⟨classify_fail_default d o, fun h t => score_fail_default t d o h,
    title_fail_fallback d o, fun h => ?_⟩
  unfold _fallback_title fallbackTitleL
  rw [if_pos h]

/-- C1 witness: the fallback policy at a concrete description and an
exception outcome. -/
theorem C1_fallback_policy_witness :
    classify_ticket "Hi" LLMOutcome.exn = DEFAULT_CLASSIFICATION ∧
    suggest_title "Hi" LLMOutcome.exn = _fallback_title "Hi" :=
  ⟨(C1_fallback_policy "Hi" LLMOutcome.exn).1 True.intro,
   (C1_fallback_policy "Hi" LLMOutcome.exn).2.2.1 True.intro⟩

/-- C2: a PATCH rescores sentiment and urgency exactly when the validated
data holds a title or a description; a status-only (or otherwise
text-free) update leaves both fields untouched and its result does not
depend on the external outcome at all. -/
theorem C2_update_rescore (o : LLMOutcome) (inst : Ticket) (vd : ValidatedUpdate) :
    (vd.title = Option.none → vd.description = Option.none →
      (perform_update o inst vd).sentiment = inst.sentiment ∧
      (perform_update o inst vd).urgency_score = inst.urgency_score ∧
      ∀ o2, perform_update o2 inst vd = perform_update o inst vd) ∧
    ((vd.title ≠ Option.none ∨ vd.description ≠ Option.none) →
      (perform_update o inst vd).sentiment =
        (score_sentiment_urgency (vd.title.getD inst.title)
          (vd.description.getD inst.description) o).sentiment ∧
      (perform_update o inst vd).urgency_score =
        (score_sentiment_urgency (vd.title.getD inst.title)
          (vd.description.getD inst.description) o).urgency_score) := by
  constructor
  · intro h1 h2
    have helse : ∀ o2, perform_update o2 inst vd = applyUpdateFields inst vd := by
      intro o2
      unfold perform_update
      rw [h1, h2]
      simp
    exact ⟨by rw [helse o]; rfl, by rw [helse o]; rfl,
      fun o2 => by rw [helse o2, helse o]⟩
  · intro h
    have hcond : (vd.title.isSome || vd.description.isSome) = true := by
      rcases h with h | h
      · rcases ht : vd.title with _ | t
        · exact absurd ht h
        · simp [ht]
      · rcases hd2 : vd.description with _ | d2
        · exact absurd hd2 h
        · simp [hd2]
    unfold perform_update
    rw [if_pos hcond]
    exact ⟨rfl, rfl⟩

/-- C2 witness: a status-only update of a concrete ticket keeps sentiment
and urgency unchanged. -/
theorem C2_update_rescore_witness :
    (perform_update LLMOutcome.exn
        ⟨"Checkout timeout", "Times out.", "technical", "high", "open", "calm", 20⟩
        ⟨Option.none, Option.none, Option.none, Option.none, some "resolved"⟩).sentiment
      = "calm" ∧
    (perform_update LLMOutcome.exn
        ⟨"Checkout timeout", "Times out.", "technical", "high", "open", "calm", 20⟩
        ⟨Option.none, Option.none, Option.none, Option.none, some "resolved"⟩).urgency_score
      = 20 :=
  ⟨((C2_update_rescore LLMOutcome.exn
      ⟨"Checkout timeout", "Times out.", "technical", "high", "open", "calm", 20⟩
      ⟨Option.none, Option.none, Option.none, Option.none, some "resolved"⟩).1
      rfl rfl).1,
   ((C2_update_rescore LLMOutcome.exn
      ⟨"Checkout timeout", "Times out.", "technical", "high", "open", "calm", 20⟩
      ⟨Option.none, Option.none, Option.none, Option.none, some "resolved"⟩).1
      rfl rfl).2.1⟩

/-- C3: every ticket stored by a validated create or update satisfies the
enum and range invariant of the model, and update preserves it. -/
theorem C3_enum_range_invariant (o : LLMOutcome) (raw : RawTicketInput)
    (inst : Ticket) :
    (∀ vd, runCreateValidation raw = some vd → validTicket (perform_create o vd)) ∧
    (∀ vd, validTicket inst → runUpdateValidation raw = some vd →
      validTicket (perform_update o inst vd)) :=
  ⟨fun vd h => perform_create_valid o raw vd h,
   fun vd hi h => perform_update_valid o inst raw vd hi h⟩

/-- C3 witness: a concrete validated create yields a ticket satisfying
the invariant. -/
theorem C3_enum_range_invariant_witness :
    validTicket (perform_create LLMOutcome.exn
      ⟨"Login broken", "Cannot log in.", "account", "high", Option.none⟩) :=
  (C3_enum_range_invariant LLMOutcome.exn
      ⟨some "Login broken", some "Cannot log in.", some "account", some "high",
        Option.none, Option.none, Option.none⟩
      ⟨"t", "d", "general", "low", "open", "neutral", 50⟩).1
    ⟨"Login broken", "Cannot log in.", "account", "high", Option.none⟩
    (by decide)

/-- C4: the stats response is correct with respect to the stored tickets:
the total is the store size, each count is the number of tickets with the
corresponding field value, and the average urgency is the arithmetic mean
(zero on an empty store). -/
theorem C4_stats_correct (store : List Ticket) :
    (stats_view store).1.total_tickets = store.length ∧
    (stats_view store).1.open_tickets
      = countWhere (fun t => t.status == "open") store ∧
    (stats_view store).1.priority_low
      = countWhere (fun t => t.priority == "low") store ∧
    (stats_view store).1.priority_medium
      = countWhere (fun t => t.priority == "medium") store ∧
    (stats_view store).1.priority_high
      = countWhere (fun t => t.priority == "high") store ∧
    (stats_view store).1.priority_critical
      = countWhere (fun t => t.priority == "critical") store ∧
    (stats_view store).1.category_billing
      = countWhere (fun t => t.category == "billing") store ∧
    (stats_view store).1.category_technical
      = countWhere (fun t => t.category == "technical") store ∧
    (stats_view store).1.category_account
      = countWhere (fun t => t.category == "account") store ∧
    (stats_view store).1.category_general
      = countWhere (fun t => t.category == "general") store ∧
    (stats_view store).1.sentiment_calm
      = countWhere (fun t => t.sentiment == "calm") store ∧
    (stats_view store).1.sentiment_neutral
      = countWhere (fun t => t.sentiment == "neutral") store ∧
    (stats_view store).1.sentiment_frustrated
      = countWhere (fun t => t.sentiment == "frustrated") store ∧
    (stats_view store).1.sentiment_angry
      = countWhere (fun t => t.sentiment == "angry") store ∧
    (stats_view store).1.avg_urgency_score
      = (if store = [] then (0 : ℚ)
         else ((store.map (fun t => t.urgency_score)).sum : ℚ) / (store.length : ℚ)) := by
  have ha := aggregate_spec store
  simp only [stats_view]
  rw [ha]
  refine ⟨rfl, rfl, rfl, rfl, rfl, rfl, rfl, rfl, rfl, rfl, rfl, rfl, rfl, rfl, ?_⟩
  by_cases hs : store = []
  · subst hs
    simp
  · have hlen : ¬ store.length = 0 := fun hlen => hs (List.length_eq_zero.mp hlen)
    rw [if_neg hs, if_neg hlen]
    show (((store.map (fun t => t.urgency_score)).sum : ℤ) : ℚ) / (store.length : ℚ)
      = (store.map (fun t => (t.urgency_score : ℚ))).sum / (store.length : ℚ)
    rw [cast_sum_map]

/-- C7: the stats endpoint performs no write: the store after a stats
request is the store before it. -/
theorem C7_stats_readonly (store : List Ticket) : (stats_view store).2 = store := rfl

/-- C9: sentiment and urgency_score are server-controlled: two requests
that differ only in the client-supplied sentiment and urgency_score fields
produce identical results and stores, for create and for update; on a
create the stored signal fields come from the scoring result alone. -/
theorem C9_signals_server_controlled (o : LLMOutcome) (store : List Ticket)
    (i : Nat) (raw : RawTicketInput) (s s2 : Option String) (u u2 : Option Int) :
    create_view o store { raw with sentiment := s, urgency_score := u }
      = create_view o store { raw with sentiment := s2, urgency_score := u2 } ∧
    update_view o store i { raw with sentiment := s, urgency_score := u }
      = update_view o store i { raw with sentiment := s2, urgency_score := u2 } ∧
    (∀ vd, runCreateValidation raw = some vd →
      (perform_create o vd).sentiment
        = (score_sentiment_urgency vd.title vd.description o).sentiment ∧
      (perform_create o vd).urgency_score
        = (score_sentiment_urgency vd.title vd.description o).urgency_score) :=
  ⟨rfl, rfl, fun vd _ => ⟨rfl, rfl⟩⟩

/-- C9 witness: concrete instantiation with two different client-supplied
signal values. -/
theorem C9_signals_server_controlled_witness :
    create_view LLMOutcome.exn []
        { title := some "T", description := some "D", category := some "general",
          priority := some "low", status := Option.none,
          sentiment := some "angry", urgency_score := some 99 }
      = create_view LLMOutcome.exn []
        { title := some "T", description := some "D", category := some "general",
          priority := some "low", status := Option.none,
          sentiment := Option.none, urgency_score := Option.none } ∧
    (perform_create LLMOutcome.exn
        ⟨"T", "D", "general", "low", Option.none⟩).sentiment
      = (score_sentiment_urgency "T" "D" LLMOutcome.exn).sentiment :=
  ⟨(C9_signals_server_controlled LLMOutcome.exn [] 0
      ⟨some "T", some "D", some "general", some "low", Option.none,
        Option.none, Option.none⟩
      (some "angry") Option.none (some 99) Option.none).1,
   ((C9_signals_server_controlled LLMOutcome.exn [] 0
      ⟨some "T", some "D", some "general", some "low", Option.none,
        Option.none, Option.none⟩
      (some "angry") Option.none (some 99) Option.none).2.2
      ⟨"T", "D", "general", "low", Option.none⟩ (by decide)).1⟩

/-- C5: classify_ticket returns the validated payload fields when the
payload is a dict whose suggested_category and suggested_priority are
valid enum values, and the default classification whenever validation
rejects the payload; in every case both returned fields are valid enum
members. -/
theorem C5_classify_validation (d : String) (o : LLMOutcome) :
    ((classify_ticket d o).suggested_category ∈ categoryValues ∧
      (classify_ticket d o).suggested_priority ∈ priorityValues) ∧
    (∀ entries c p,
      o = LLMOutcome.returns (PyVal.dict entries) →
      PyVal.get entries "suggested_category" = PyVal.str c → c ∈ categoryValues →
      PyVal.get entries "suggested_priority" = PyVal.str p → p ∈ priorityValues →
      classify_ticket d o = { suggested_category := c, suggested_priority := p }) ∧
    (∀ v, o = LLMOutcome.returns v →
      _validate_classification_payload v = Option.none →
      classify_ticket d o = DEFAULT_CLASSIFICATION) := by
  refine ⟨?_, ?_, ?_⟩
  · cases o with
    | exn =>
      rw [show classify_ticket d LLMOutcome.exn = DEFAULT_CLASSIFICATION from rfl]
      exact ⟨by decide, by decide⟩
    | returns v =>
      rcases hv : _validate_classification_payload v with _ | cls
      · rw [show classify_ticket d (LLMOutcome.returns v)
            = (_validate_classification_payload v).getD DEFAULT_CLASSIFICATION
          from rfl, hv, Option.getD_none]
        exact ⟨by decide, by decide⟩
      · rw [show classify_ticket d (LLMOutcome.returns v)
            = (_validate_classification_payload v).getD DEFAULT_CLASSIFICATION
          from rfl, hv, Option.getD_some]
        exact validate_classification_sound v cls hv
  · intro entries c p ho hgc hcmem hgp hpmem
    subst ho
    have hv : _validate_classification_payload (PyVal.dict entries)
        = some { suggested_category := c, suggested_priority := p } := by
      simp only [_validate_classification_payload]
      rw [hgc, hgp, checkChoice_complete hcmem, checkChoice_complete hpmem]
      rfl
    rw [show classify_ticket d (LLMOutcome.returns (PyVal.dict entries))
        = (_validate_classification_payload (PyVal.dict entries)).getD
            DEFAULT_CLASSIFICATION
      from rfl, hv, Option.getD_some]
  · intro v ho hnone
    subst ho
    rw [show classify_ticket d (LLMOutcome.returns v)
        = (_validate_classification_payload v).getD DEFAULT_CLASSIFICATION
      from rfl, hnone, Option.getD_none]

/-- C5 witness: a concrete valid payload is passed through, and a concrete
invalid payload falls back to the default. -/
theorem C5_classify_validation_witness :
    classify_ticket "x"
        (LLMOutcome.returns (PyVal.dict
          [("suggested_category", PyVal.str "billing"),
           ("suggested_priority", PyVal.str "high")]))
      = { suggested_category := "billing", suggested_priority := "high" } ∧
    classify_ticket "x" (LLMOutcome.returns (PyVal.str "oops"))
      = DEFAULT_CLASSIFICATION :=
  ⟨(C5_classify_validation "x"
      (LLMOutcome.returns (PyVal.dict
        [("suggested_category", PyVal.str "billing"),
         ("suggested_priority", PyVal.str "high")]))).2.1
      [("suggested_category", PyVal.str "billing"),
       ("suggested_priority", PyVal.str "high")]
      "billing" "high" rfl rfl (by decide) rfl (by decide),
   (C5_classify_validation "x" (LLMOutcome.returns (PyVal.str "oops"))).2.2
      (PyVal.str "oops") rfl (by decide)⟩

/-- C6 counterexample: the max_retries argument passed to the client
constructor is not always 0: the OPENAI_MAX_RETRIES environment variable
overrides it, so the claim that the client is constructed with a maximum
retry count of 0 fails when the variable is set. -/
theorem C6_retries_not_always_zero :
    ¬ ∀ env : Option String, client_max_retries env = 0 := by
  intro h
  exact absurd (h (some "5")) (by decide)

/-- C6 (amended): the default maximum retry count is 0 and the client is
constructed with 0 retries whenever OPENAI_MAX_RETRIES is unset, blank,
unparsable as an integer, or negative; a set valid non-negative value
overrides it.  A failing call yields the fallback result directly: the
operations consume a single call outcome and never retry. -/
theorem C6_no_retry_policy (s : String) (d t : String) (o : LLMOutcome) :
    DEFAULT_OPENAI_MAX_RETRIES = 0 ∧
    client_max_retries Option.none = 0 ∧
    (pyStrip s = "" → client_max_retries (some s) = 0) ∧
    (pyStrip s ≠ "" → pyParseInt (pyStrip s) = Option.none →
      client_max_retries (some s) = 0) ∧
    (∀ n, pyParseInt (pyStrip s) = some n → n < 0 →
      client_max_retries (some s) = 0) ∧
    (∀ n, pyParseInt (pyStrip s) = some n → 0 ≤ n →
      client_max_retries (some s) = n) ∧
    (classifyFails o → classify_ticket d o = DEFAULT_CLASSIFICATION) ∧
    (scoreFails o → score_sentiment_urgency t d o = DEFAULT_SENTIMENT_URGENCY) ∧
    (titleFails o → suggest_title d o = _fallback_title d) := by
  have hparse_blank : ∀ n : Int, pyStrip s = "" →
      ¬ pyParseInt (pyStrip s) = some n := by
    intro n he hp
    rw [he, show pyParseInt "" = Option.none from rfl] at hp
    exact absurd hp (by simp)
  refine ⟨rfl, rfl, ?_, ?_, ?_, ?_, classify_fail_default d o,
    score_fail_default t d o, title_fail_fallback d o⟩
  · intro he
    simp only [client_max_retries, _env_int, Option.getD_some]
    rw [if_pos he]
    rfl
  · intro hne hnone
    simp only [client_max_retries, _env_int, Option.getD_some]
    rw [if_neg hne, hnone]
    rfl
  · intro n hp hneg
    have hne : ¬ pyStrip s = "" := fun he => hparse_blank n he hp
    simp only [client_max_retries, _env_int, Option.getD_some]
    rw [if_neg hne, hp]
    simp only []
    rw [if_pos (by omega : n < 0)]
    rfl
  · intro n hp hnn
    have hne : ¬ pyStrip s = "" := fun he => hparse_blank n he hp
    simp only [client_max_retries, _env_int, Option.getD_some]
    rw [if_neg hne, hp]
    simp only []
    rw [if_neg (by omega : ¬ n < 0)]

/-- C6 witness: concrete environment values for the amended claim, one
per configuration case: blank, unparsable, negative, and a valid
non-negative override. -/
theorem C6_no_retry_policy_witness :
    client_max_retries (some "  ") = 0 ∧
    client_max_retries (some "abc") = 0 ∧
    client_max_retries (some "-3") = 0 ∧
    client_max_retries (some "7") = 7 ∧
    suggest_title "Page is down" LLMOutcome.exn = _fallback_title "Page is down" :=
  ⟨(C6_no_retry_policy "  " "d" "t" LLMOutcome.exn).2.2.1 (by decide),
   (C6_no_retry_policy "abc" "d" "t" LLMOutcome.exn).2.2.2.1 (by decide)
     (by decide),
   (C6_no_retry_policy "-3" "d" "t" LLMOutcome.exn).2.2.2.2.1 (-3) (by decide)
     (by decide),
   (C6_no_retry_policy "7" "d" "t" LLMOutcome.exn).2.2.2.2.2.1 7 (by decide)
     (by decide),
   (C6_no_retry_policy "x" "Page is down" "t" LLMOutcome.exn).2.2.2.2.2.2.2.2
     True.intro⟩

/-- C8 counterexample: the fallback title is not always a prefix of the
first sentence: a description opening with a quote character yields a
fallback title whose leading quote has been stripped, so it is not a
prefix (and not the default title either). -/
theorem C8_fallback_not_prefix :
    ¬ (_fallback_title "\"Hi. Bye" = DEFAULT_TITLE ∨
       ((_fallback_title "\"Hi. Bye").data ≠ [] ∧
        isPrefL (_fallback_title "\"Hi. Bye").data (firstSentenceOf "\"Hi. Bye") ∧
        (_fallback_title "\"Hi. Bye").length ≤ 60)) := by
  intro h
  rcases h with h | ⟨h1, ⟨tail, ht⟩, h3⟩
  · exact absurd h (by decide)
  · have hhead := congrArg List.head? ht
    rw [List.head?_append_of_ne_nil _ (by decide)] at hhead
    exact absurd hhead (by decide)

/-- C8 (amended): suggest_title always returns a non-empty trimmed string
of at most 120 characters, and the fallback path returns either the
default title or a non-empty contiguous substring of the first sentence of
the description, of at most 60 characters. -/
theorem C8_title_shape (d : String) (o : LLMOutcome) :
    (suggest_title d o).data ≠ [] ∧
    (suggest_title d o).length ≤ 120 ∧
    trimmedNonempty (suggest_title d o).data ∧
    (_fallback_title d = DEFAULT_TITLE ∨
      ((_fallback_title d).data ≠ [] ∧
        isInfL (_fallback_title d).data (firstSentenceOf d) ∧
        (_fallback_title d).length ≤ 60)) := by
  have hg := suggest_title_good d o
  have hf := fallbackTitleL_good d.data
  refine ⟨hg.1.1, hg.2, hg.1, ?_⟩
  rcases hf.2.2 with h | h
  · exact Or.inl (congrArg String.mk h)
  · exact Or.inr ⟨hf.1.1, h, hf.2.1⟩

/-- C10: create and update reject a blank (whitespace-only) title or
description and a trimmed title longer than 200 characters, leaving the
store unchanged; on acceptance the stored title and description are the
whitespace-trimmed submitted values. -/
theorem C10_trim_validation (o : LLMOutcome) (store : List Ticket) (i : Nat)
    (raw : RawTicketInput) :
    (∀ t, raw.title = some t → (pyStrip t = "" ∨ (pyStrip t).length > 200) →
      create_view o store raw = (Option.none, store) ∧
      update_view o store i raw = (Option.none, store)) ∧
    (∀ d2, raw.description = some d2 → pyStrip d2 = "" →
      create_view o store raw = (Option.none, store) ∧
      update_view o store i raw = (Option.none, store)) ∧
    (∀ tk store2, create_view o store raw = (some tk, store2) →
      store2 = store ++ [tk] ∧
      (∀ t, raw.title = some t → tk.title = pyStrip t) ∧
      (∀ d2, raw.description = some d2 → tk.description = pyStrip d2)) ∧
    (∀ tk store2, update_view o store i raw = (some tk, store2) →
      (∀ t, raw.title = some t → tk.title = pyStrip t) ∧
      (∀ d2, raw.description = some d2 → tk.description = pyStrip d2)) := by
  refine ⟨?_, ?_, ?_, ?_⟩
  · intro t ht hbad
    have hv : validate_title t = Option.none := (validate_title_none_iff t).mpr hbad
    have h1 := runCreateValidation_rejects_title raw t ht hv
    have h2 := runUpdateValidation_rejects_title raw t ht hv
    constructor
    · simp [create_view, h1]
    · unfold update_view
      cases hI : store[i]? with
      | none => rfl
      | some inst => simp [h2]
  · intro d2 hd hbad
    have hv : validate_description d2 = Option.none :=
      (validate_description_none_iff d2).mpr hbad
    have h1 := runCreateValidation_rejects_description raw d2 hd hv
    have h2 := runUpdateValidation_rejects_description raw d2 hd hv
    constructor
    · simp [create_view, h1]
    · unfold update_view
      cases hI : store[i]? with
      | none => rfl
      | some inst => simp [h2]
  · intro tk store2 h
    unfold create_view at h
    rcases hrv : runCreateValidation raw with _ | vd <;> rw [hrv] at h
    · simp at h
    · rw [Prod.mk.injEq] at h
      obtain ⟨htk, hst⟩ := h
      have htk2 : perform_create o vd = tk := Option.some.inj htk
      subst htk2
      obtain ⟨_, _, _, ⟨t0, hT0, hvt⟩, ⟨d0, hD0, hvd0⟩⟩ :=
        runCreateValidation_sound raw vd hrv
      refine ⟨hst.symm, ?_, ?_⟩
      · intro t ht
        rw [ht] at hT0
        show vd.title = pyStrip t
        rw [hvt, Option.some.inj hT0]
      · intro d2 hd
        rw [hd] at hD0
        show vd.description = pyStrip d2
        rw [hvd0, Option.some.inj hD0]
  · intro tk store2 h
    unfold update_view at h
    rcases hI : store[i]? with _ | inst <;> rw [hI] at h
    · simp at h
    · rcases hrv : runUpdateValidation raw with _ | vd <;> rw [hrv] at h
      · simp at h
      · rw [Prod.mk.injEq] at h
        obtain ⟨htk, _⟩ := h
        have htk2 : perform_update o inst vd = tk := Option.some.inj htk
        obtain ⟨hvt, hvd0, _, _, _, _, _⟩ := runUpdateValidation_sound raw vd hrv
        refine ⟨?_, ?_⟩
        · intro t ht
          rw [← htk2, perform_update_title, hvt t ht, Option.getD_some]
        · intro d2 hd
          rw [← htk2, perform_update_description, hvd0 d2 hd, Option.getD_some]

/-- C10 witness: a blank title is rejected on a concrete store, and a
concrete accepted create stores the trimmed title and description. -/
theorem C10_trim_validation_witness :
    create_view LLMOutcome.exn []
        ⟨some "   ", some "Broken.", some "general", some "low",
          Option.none, Option.none, Option.none⟩
      = (Option.none, []) ∧
    (∀ tk store2,
      create_view LLMOutcome.exn []
          ⟨some "  Login broken ", some " Cannot log in. ", some "account",
            some "high", Option.none, Option.none, Option.none⟩
        = (some tk, store2) →
      tk.title = pyStrip "  Login broken ") :=
  ⟨((C10_trim_validation LLMOutcome.exn [] 0
      ⟨some "   ", some "Broken.", some "general", some "low",
        Option.none, Option.none, Option.none⟩).1
      "   " rfl (Or.inl (by decide))).1,
   fun tk store2 h =>
     ((C10_trim_validation LLMOutcome.exn [] 0
        ⟨some "  Login broken ", some " Cannot log in. ", some "account",
          some "high", Option.none, Option.none, Option.none⟩).2.2.1
        tk store2 h).2.1 "  Login broken " rfl⟩

end TicketSystem
